import Mathlib

set_option maxRecDepth 8000

/-
  Verification of the pdf2png converter core (src/converter.py).

  Modelling conventions (shallow embedding):

  * A page together with the renderer and encoder is modelled by a function
    render : ℕ → List ℕ mapping a DPI value to the encoded byte buffer
    that one render+encode cycle at that DPI produces (converter.py,
    render_to_memory, lines 57-68 and 598-609).  Only the buffer and its
    length matter to the claims.

  * The Phase-2 geometric back-off computes, in Python floating point,
        int(current_dpi * (max_size_bytes / actual_size) ** 0.5 * safety)
    (converter.py lines 100-101 / 635-636).  This floating-point
    expression is abstracted as a parameter scale : ℕ → ℕ → ℕ → ℕ taking
    the iteration index (which determines the safety factor
    0.95 * 0.95 ^ i), the current DPI and the current encoded size.  The
    clamp max(min_dpi, ...) of line 102 / 637 stays in the model.  All
    universally quantified theorems below hold for every scale function,
    hence in particular for the floating-point one; concrete
    counterexamples instantiate scale with the value the floating-point
    expression provably takes at the inputs actually reached, justified
    by an error analysis in a comment at the instantiation.

  * For integers x in the DPI range, int(x * 0.8) of line 167 / 718
    equals x * 4 / 5 in ℕ: the double nearest to 0.8 is
    0.8 + 4.44e-17, so the computed product is x*0.8 with relative error
    below 1.2e-16; when 4x/5 is not an integer the fractional part is at
    least 0.2, and when it is an integer k the product rounds back to
    exactly k, so truncation agrees with floor(4x/5) for all x ≤ 10^6.
    Likewise int(x * 1.15) of line 140 / 686 equals x * 115 / 100
    (the double nearest to 1.15 is 1.15 - 8.9e-17), and the comparison
    actual_size <= max_size_bytes * 0.90 of line 135 / 677 agrees with
    actual_size * 10 ≤ max_size_bytes * 9 (the double nearest to 0.9 is
    0.9 + 2.2e-17 and the product b * 0.9 rounds to the double nearest
    to 9b/10, which is 9b/10 itself whenever 10 divides 9b).

  * Loops are modelled by fuel-indexed recursion.  Every call site passes
    a fuel value that provably dominates the loop variant (the interval
    width for the two bisections, the strictly decreasing DPI for the
    emergency loop), so the fuel-exhaustion branch returns the same state
    the Python loop exit returns and the model is extensionally the loop.
-/

/-- Search state produced by one phase: the pair (current DPI, byte buffer
currently held as the result) together with the list of DPI values that
were rendered, in chronological order. -/
abbrev SR : Type := (ℕ × List ℕ) × List ℕ

/-- Phase 2 of the size-limited search (converter.py lines 95-109 and
630-647): geometric back-off for at most 3 iterations; each iteration
scales the current DPI with the abstracted floating-point factor, clamps
at min_dpi, renders, and stops as soon as the encoding fits the budget. -/
def backoff (render : ℕ → List ℕ) (scale : ℕ → ℕ → ℕ → ℕ)
    (budget minDpi : ℕ) : ℕ → ℕ → ℕ → List ℕ → SR
  | 0, _, current, buf => ((current, buf), [])
  | fuel + 1, iter, current, buf =>
    let c := max minDpi (scale iter current buf.length)
    let b := render c
    if b.length ≤ budget then ((c, b), [c])
    else
      let r := backoff render scale budget minDpi fuel (iter + 1) c b
      (r.1, c :: r.2)

/-- Phase 3 bisection loop (converter.py lines 116-126 and 657-668):
while high - low > 5, render the midpoint; accept it as the new lower
bound, current DPI and result only if it fits the budget. -/
def bisectDown (render : ℕ → List ℕ) (budget : ℕ) :
    ℕ → ℕ → ℕ → ℕ → List ℕ → SR
  | 0, _, _, current, buf => ((current, buf), [])
  | fuel + 1, low, high, current, buf =>
    if high - low ≤ 5 then ((current, buf), [])
    else
      let mid := (low + high) / 2
      let mb := render mid
      if mb.length ≤ budget then
        let r := bisectDown render budget fuel mid high mid mb
        (r.1, mid :: r.2)
      else
        let r := bisectDown render budget fuel low mid current buf
        (r.1, mid :: r.2)

/-- Phase 4 upward-approximation loop (converter.py lines 139-154 and
685-702): while high - low > 10, render the midpoint; keep it as best
only if it fits the budget. -/
def bisectUp (render : ℕ → List ℕ) (budget : ℕ) :
    ℕ → ℕ → ℕ → ℕ → List ℕ → SR
  | 0, _, _, bestDpi, bestBuf => ((bestDpi, bestBuf), [])
  | fuel + 1, low, high, bestDpi, bestBuf =>
    if high - low ≤ 10 then ((bestDpi, bestBuf), [])
    else
      let mid := (low + high) / 2
      let mb := render mid
      if mb.length ≤ budget then
        let r := bisectUp render budget fuel mid high mid mb
        (r.1, mid :: r.2)
      else
        let r := bisectUp render budget fuel low mid bestDpi bestBuf
        (r.1, mid :: r.2)

/-- Phase 5 emergency loop (converter.py lines 164-170 and 715-721):
while the result is over budget and the emergency DPI is above 36, scale
the DPI by 0.8 (int(e * 0.8) = e * 4 / 5, see header) and re-render. -/
def emergency (render : ℕ → List ℕ) (budget : ℕ) :
    ℕ → ℕ → ℕ → List ℕ → SR
  | 0, _, current, buf => ((current, buf), [])
  | fuel + 1, e, current, buf =>
    if buf.length ≤ budget ∨ e ≤ 36 then ((current, buf), [])
    else
      let e2 := e * 4 / 5
      let r := emergency render budget fuel e2 e2 (render e2)
      (r.1, e2 :: r.2)

/-- Phase 3 wrapper (converter.py lines 111-132 and 649-674): enter the
downward bisection only if still over budget and above min_dpi; if the
bisection result is still over budget, force min_dpi. -/
def phase3 (render : ℕ → List ℕ) (budget minDpi : ℕ) (s : ℕ × List ℕ) : SR :=
  if budget < s.2.length ∧ minDpi < s.1 then
    let r := bisectDown render budget (s.1 - minDpi) minDpi s.1 s.1 s.2
    if budget < r.1.2.length then ((minDpi, render minDpi), r.2 ++ [minDpi])
    else r
  else (s, [])

/-- Phase 4 wrapper (converter.py lines 134-154 and 676-702): if the
result uses at most 90 percent of the budget and is below max_dpi, bisect
upward from the current DPI to min(int(current * 1.15), max_dpi). -/
def phase4 (render : ℕ → List ℕ) (budget maxDpi : ℕ)
    (s : ℕ × List ℕ) : SR :=
  if s.2.length * 10 ≤ budget * 9 ∧ s.1 < maxDpi then
    let hi := min (s.1 * 115 / 100) maxDpi
    bisectUp render budget (hi - s.1) s.1 hi s.1 s.2
  else (s, [])

/-- Phase 5 wrapper (converter.py lines 156-170 and 704-721): if the
final candidate is over budget, force min_dpi and run the emergency
loop. -/
def phase5 (render : ℕ → List ℕ) (budget minDpi : ℕ) (s : ℕ × List ℕ) : SR :=
  if budget < s.2.length then
    let r := emergency render budget minDpi minDpi minDpi (render minDpi)
    (r.1, minDpi :: r.2)
  else (s, [])

/-- The size-limited search of converter.py lines 83-173 (and identically
575-733): optimistic ceiling at max_dpi, then Phases 2-5. -/
def sizeLimitedSearch (render : ℕ → List ℕ) (scale : ℕ → ℕ → ℕ → ℕ)
    (budget minDpi maxDpi : ℕ) : SR :=
  let b1 := render maxDpi
  if b1.length ≤ budget then ((maxDpi, b1), [maxDpi])
  else
    let p2 := backoff render scale budget minDpi 3 0 maxDpi b1
    let p3 := phase3 render budget minDpi p2.1
    let p4 := phase4 render budget maxDpi p3.1
    let p5 := phase5 render budget minDpi p4.1
    (p5.1, maxDpi :: (p2.2 ++ p3.2 ++ p4.2 ++ p5.2))

/-- The per-page worker _convert_page_worker (converter.py lines 24-179),
restricted to its search behaviour: quality-first mode renders exactly
once at max_dpi and returns unconditionally (lines 77-81); otherwise the
size-limited search runs (lines 83-173). -/
def convertPageWorker (render : ℕ → List ℕ) (scale : ℕ → ℕ → ℕ → ℕ)
    (budget minDpi maxDpi : ℕ) (qualityFirst : Bool) : SR :=
  if qualityFirst then ((maxDpi, render maxDpi), [maxDpi])
  else sizeLimitedSearch render scale budget minDpi maxDpi

/-- Verbatim copy of the Phase-2 loop as it appears in the sequential
method _render_with_size_limit (converter.py lines 630-647). -/
def seqBackoff (render : ℕ → List ℕ) (scale : ℕ → ℕ → ℕ → ℕ)
    (budget minDpi : ℕ) : ℕ → ℕ → ℕ → List ℕ → SR
  | 0, _, current, buf => ((current, buf), [])
  | fuel + 1, iter, current, buf =>
    let c := max minDpi (scale iter current buf.length)
    let b := render c
    if b.length ≤ budget then ((c, b), [c])
    else
      let r := seqBackoff render scale budget minDpi fuel (iter + 1) c b
      (r.1, c :: r.2)

/-- Verbatim copy of the Phase-3 bisection loop of the sequential method
(converter.py lines 657-668). -/
def seqBisectDown (render : ℕ → List ℕ) (budget : ℕ) :
    ℕ → ℕ → ℕ → ℕ → List ℕ → SR
  | 0, _, _, current, buf => ((current, buf), [])
  | fuel + 1, low, high, current, buf =>
    if high - low ≤ 5 then ((current, buf), [])
    else
      let mid := (low + high) / 2
      let mb := render mid
      if mb.length ≤ budget then
        let r := seqBisectDown render budget fuel mid high mid mb
        (r.1, mid :: r.2)
      else
        let r := seqBisectDown render budget fuel low mid current buf
        (r.1, mid :: r.2)

/-- Verbatim copy of the Phase-4 loop of the sequential method
(converter.py lines 685-702). -/
def seqBisectUp (render : ℕ → List ℕ) (budget : ℕ) :
    ℕ → ℕ → ℕ → ℕ → List ℕ → SR
  | 0, _, _, bestDpi, bestBuf => ((bestDpi, bestBuf), [])
  | fuel + 1, low, high, bestDpi, bestBuf =>
    if high - low ≤ 10 then ((bestDpi, bestBuf), [])
    else
      let mid := (low + high) / 2
      let mb := render mid
      if mb.length ≤ budget then
        let r := seqBisectUp render budget fuel mid high mid mb
        (r.1, mid :: r.2)
      else
        let r := seqBisectUp render budget fuel low mid bestDpi bestBuf
        (r.1, mid :: r.2)

/-- Verbatim copy of the Phase-5 emergency loop of the sequential method
(converter.py lines 715-721). -/
def seqEmergency (render : ℕ → List ℕ) (budget : ℕ) :
    ℕ → ℕ → ℕ → List ℕ → SR
  | 0, _, current, buf => ((current, buf), [])
  | fuel + 1, e, current, buf =>
    if buf.length ≤ budget ∨ e ≤ 36 then ((current, buf), [])
    else
      let e2 := e * 4 / 5
      let r := seqEmergency render budget fuel e2 e2 (render e2)
      (r.1, e2 :: r.2)

/-- The sequential method _render_with_size_limit (converter.py lines
575-733), translated independently of the worker: it takes the dpi_levels
ladder and uses dpi_levels[0] as max_dpi (line 596), then runs the same
five phases. -/
def seqRenderWithSizeLimit (render : ℕ → List ℕ) (scale : ℕ → ℕ → ℕ → ℕ)
    (budget : ℕ) (dpiLevels : List ℕ) (minDpi : ℕ) : SR :=
  let maxDpi := dpiLevels.headD 0
  let b1 := render maxDpi
  if b1.length ≤ budget then ((maxDpi, b1), [maxDpi])
  else
    let p2 := seqBackoff render scale budget minDpi 3 0 maxDpi b1
    let p3 :=
      if budget < p2.1.2.length ∧ minDpi < p2.1.1 then
        let r := seqBisectDown render budget (p2.1.1 - minDpi) minDpi p2.1.1
          p2.1.1 p2.1.2
        if budget < r.1.2.length then ((minDpi, render minDpi), r.2 ++ [minDpi])
        else r
      else (p2.1, [])
    let p4 :=
      if p3.1.2.length * 10 ≤ budget * 9 ∧ p3.1.1 < maxDpi then
        let hi := min (p3.1.1 * 115 / 100) maxDpi
        seqBisectUp render budget (hi - p3.1.1) p3.1.1 hi p3.1.1 p3.1.2
      else (p3.1, [])
    let p5 :=
      if budget < p4.1.2.length then
        let r := seqEmergency render budget minDpi minDpi minDpi (render minDpi)
        (r.1, minDpi :: r.2)
      else (p4.1, [])
    (p5.1, maxDpi :: (p2.2 ++ p3.2 ++ p4.2 ++ p5.2))

/-- Python range(maxDpi, minDpi - 1, -step): the descending DPI ladder of
generate_dpi_levels (converter.py line 831).  Fuel-indexed; called with
fuel = maxDpi + 1 which dominates the number of steps for step ≥ 1. -/
def dpiLadder (minDpi step : ℕ) : ℕ → ℕ → List ℕ
  | 0, _ => []
  | fuel + 1, cur =>
    if minDpi ≤ cur then cur :: dpiLadder minDpi step fuel (cur - step)
    else []

/-- generate_dpi_levels (converter.py lines 810-836): quality-first mode
returns [max_dpi]; otherwise the descending ladder from max_dpi with the
given step, with min_dpi appended if absent. -/
def generate_dpi_levels (minDpi maxDpi : ℕ) (qualityFirst : Bool)
    (step : ℕ) : List ℕ :=
  if qualityFirst then [maxDpi]
  else
    let levels := dpiLadder minDpi step (maxDpi + 1) maxDpi
    if minDpi ∈ levels then levels else levels ++ [minDpi]

/-- Fuel-indexed version of the pure descent e -> e * 4 / 5 (-> int(e*0.8))
stopped at the absolute floor 36; describes the DPI value the emergency
loop of Phase 5 reaches when every render stays over budget. -/
def emDescendF : ℕ → ℕ → ℕ
  | 0, e => e
  | fuel + 1, e => if e ≤ 36 then e else emDescendF fuel (e * 4 / 5)

/-- The resolution reached by repeatedly scaling a DPI value by 0.8 until
it is at most 36 (the documented absolute floor of Phase 5). -/
def emDescend (e : ℕ) : ℕ := emDescendF e e

/-- Worker result tuple for one page, as returned by _convert_page_worker
(converter.py line 173 and 179): output path, achieved DPI, and an
optional error message (None on success). -/
structure PageTuple where
  path : String
  dpi : ℕ
  err : Option String
deriving DecidableEq

/-- Mutable aggregation state of _convert_parallel (converter.py lines
346-348): the index-addressed slot list generated_files, the dpi_list
collected in completion order, and the error list. -/
structure ParallelAgg where
  slots : List (Option String)
  dpiList : List ℕ
  errors : List (ℕ × String)
deriving DecidableEq

/-- One step of the as_completed loop of _convert_parallel (converter.py
lines 353-368): on error append to the error list, on success store the
path in the page-indexed slot and append the DPI to dpi_list. -/
def collectOutcome (o : ℕ → PageTuple) (st : ParallelAgg) (page : ℕ) :
    ParallelAgg :=
  match (o page).err with
  | some e =>
    { st with errors := st.errors ++ [(page, e)] }
  | none =>
    { st with
        slots := st.slots.set page (some (o page).path),
        dpiList := st.dpiList ++ [(o page).dpi] }

/-- Python min(l) with a default for the empty list, modelling
min(dpi_list) if dpi_list else max_dpi (converter.py line 381). -/
def pyListMin (l : List ℕ) (d : ℕ) : ℕ :=
  match l with
  | [] => d
  | x :: xs => xs.foldl Nat.min x

/-- Python max(l) with a default for the empty list (converter.py line
382). -/
def pyListMax (l : List ℕ) (d : ℕ) : ℕ :=
  match l with
  | [] => d
  | x :: xs => xs.foldl Nat.max x

/-- Aggregated document result of _convert_parallel / _convert_sequential
(converter.py lines 384-388 and 440-444); dpiList is the internal
per-page dpi_list variable, exposed so that per-page resolutions are
observable. -/
structure DocResult where
  files : List String
  dpiMin : ℕ
  dpiMax : ℕ
  errors : List (ℕ × String)
  dpiList : List ℕ
deriving DecidableEq

/-- The aggregation performed by _convert_parallel (converter.py lines
346-388).  o gives each page's worker outcome; order is the completion
order of the futures (any permutation of the page indices); the slot list
starts as [None] * page_count, failed slots are filtered out at line 374,
and the DPI range defaults to max_dpi when no page succeeded. -/
def convert_parallel (o : ℕ → PageTuple) (n : ℕ) (order : List ℕ)
    (maxDpi : ℕ) : DocResult :=
  let st := order.foldl (collectOutcome o)
    (ParallelAgg.mk (List.replicate n none) [] [])
  DocResult.mk (st.slots.filterMap id) (pyListMin st.dpiList maxDpi)
    (pyListMax st.dpiList maxDpi) st.errors st.dpiList

/-- The aggregation performed by _convert_sequential (converter.py lines
407-444): pages processed in ascending order; a page contributes its
path and DPI when _convert_page returns a result; the DPI range defaults
to max_dpi when dpi_list is empty. -/
def convert_sequential (o : ℕ → Option (String × ℕ)) (n : ℕ)
    (maxDpi : ℕ) : DocResult :=
  let st := (List.range n).foldl
    (fun (st : List String × List ℕ) i =>
      match o i with
      | some pd => (st.1 ++ [pd.1], st.2 ++ [pd.2])
      | none => st) ([], [])
  DocResult.mk st.1 (pyListMin st.2 maxDpi) (pyListMax st.2 maxDpi) [] st.2

/-- validate_dpi_range (converter.py lines 839-854) with
DPIConfig.MIN_DPI = 72 and DPIConfig.MAX_DPI = 2400 (constants.py). -/
def validate_dpi_range (minDpi maxDpi : ℤ) : Bool :=
  decide (72 ≤ minDpi) && decide (minDpi ≤ 2400) &&
  decide (72 ≤ maxDpi) && decide (maxDpi ≤ 2400) &&
  decide (minDpi ≤ maxDpi)

/-- The validation prefix and dispatch of PDFConverter.convert
(converter.py lines 241-296): file-existence check, then max_size_mb > 0,
then validate_dpi_range, then the compress-level range, each raising
before any page is rendered; only after all checks pass does any
render+encode call happen.  The result pairs the outcome (per-page
achieved DPI on success) with the concatenated list of all DPI values
rendered, so that the absence of render calls on the error paths is
observable.  max_size_mb is a Python float, modelled exactly as ℚ;
max_size_bytes = int(max_size_mb * 1024 * 1024) (line 51/595), where
truncation equals floor because the validation guarantees positivity. -/
def convertRun (render : ℕ → ℕ → List ℕ) (scale : ℕ → ℕ → ℕ → ℕ)
    (pdfExists : Bool) (pageCount : ℕ) (mb : ℚ) (minDpi maxDpi : ℤ)
    (qualityFirst : Bool) (level : ℤ) :
    Except String (List ℕ) × List ℕ :=
  if pdfExists = false then (Except.error ("file not found"), [])
  else if mb ≤ 0 then (Except.error ("max_size_mb must be positive"), [])
  else if validate_dpi_range minDpi maxDpi = false then
    (Except.error ("invalid dpi range"), [])
  else if (decide (0 ≤ level) && decide (level ≤ 9)) = false then
    (Except.error ("png compress level out of range"), [])
  else
    let budget := (⌊mb * 1048576⌋).toNat
    let results := (List.range pageCount).map
      (fun i => convertPageWorker (render i) scale budget minDpi.toNat
        maxDpi.toNat qualityFirst)
    (Except.ok (results.map (fun r => r.1.1)),
      (results.map (fun r => r.2)).flatten)

/-- Fixture for the Claim C3 counterexample: an encoder whose output is
always 2 bytes, with a 1-byte budget. -/
def renderC3 : ℕ → List ℕ := fun _ => [0, 0]

/-- Fixture for the Claim C3 counterexample: the values taken by the
floating-point scaling expression on this run.  With budget 1 and actual
size 2 the ratio is exactly 0.5; int(93 * sqrt(0.5) * 0.95) = int(62.477)
= 62, then with safety 0.9025 int(59.349) = 59, then with safety 0.857375
int(56.381) = 56 (double rounding error below 1e-13, far from the integer
boundaries).  All three are below min_dpi = 93, so they are clamped away
by max(min_dpi, ...) and any value ≤ 93 yields the identical trace. -/
def scaleC3 : ℕ → ℕ → ℕ → ℕ := fun i _ _ => [62, 59, 56].getD i 0

/-- Fixture for the Claim C4 counterexample: a strictly monotone encoded
size.  encC4 d = d + 5 for d ≤ 90 and 95 + (d - 90) * 7 beyond, so with
budget 95 the threshold resolution is exactly 90. -/
def encC4 (d : ℕ) : ℕ := if d ≤ 90 then d + 5 else 95 + (d - 90) * 7

/-- Fixture for the Claim C4 counterexample: the byte buffer at each
DPI. -/
def renderC4 : ℕ → List ℕ := fun d => List.replicate (encC4 d) 0

/-- Fixture for the Claim C4 counterexample: the value taken by the
floating-point scaling expression on this run.  Only the first back-off
iteration is reached (it lands under budget): with budget 95 and actual
size 305, int(120 * sqrt(95/305) * 0.95) = int(114 * 0.5580998) =
int(63.623) = 63, with margin 0.38 against the double rounding error
(below 1e-13).  The value is below min_dpi = 72 and is clamped to 72 by
max(min_dpi, ...). -/
def scaleC4 : ℕ → ℕ → ℕ → ℕ := fun _ _ _ => 63

-- ===========================================================================
-- Helper lemmas about the emergency descent and the absolute floor
-- ===========================================================================

/-- Fuel does not matter for emDescendF once it dominates the start value. -/
theorem emDescendF_congr : ∀ (f1 f2 e : ℕ), e ≤ f1 → e ≤ f2 →
    emDescendF f1 e = emDescendF f2 e := by
  intro f1
  induction f1 with
  | zero =>
    intro f2 e h1 h2
    have he : e = 0 := by omega
    subst he
    cases f2 <;> simp [emDescendF]
  | succ f ih =>
    intro f2 e h1 h2
    cases f2 with
    | zero =>
      have he : e = 0 := by omega
      subst he
      simp [emDescendF]
    | succ g =>
      simp only [emDescendF]
      by_cases he : e ≤ 36
      · simp [he]
      · simp only [he, if_false]
        have hlt : e * 4 / 5 < e := Nat.div_lt_of_lt_mul (by omega)
        exact ih g (e * 4 / 5) (by omega) (by omega)

/-- Values already at or below the floor are fixed by the descent. -/
theorem emDescend_of_le (e : ℕ) (h : e ≤ 36) : emDescend e = e := by
  unfold emDescend
  cases e with
  | zero => rfl
  | succ n => simp [emDescendF, h]

/-- One unfolding step of the descent above the floor. -/
theorem emDescend_step (e : ℕ) (h : 36 < e) :
    emDescend e = emDescend (e * 4 / 5) := by
  unfold emDescend
  obtain ⟨n, rfl⟩ : ∃ n, e = n + 1 := ⟨e - 1, by omega⟩
  simp only [emDescendF]
  rw [if_neg (by omega)]
  have hlt : (n + 1) * 4 / 5 < n + 1 := Nat.div_lt_of_lt_mul (by omega)
  exact emDescendF_congr n ((n + 1) * 4 / 5) ((n + 1) * 4 / 5) (by omega) le_rfl

/-- The descent always ends at or below the absolute floor 36. -/
theorem emDescend_le (e : ℕ) : emDescend e ≤ 36 := by
  induction e using Nat.strong_induction_on with
  | _ e ih =>
    by_cases h : e ≤ 36
    · rw [emDescend_of_le e h]; exact h
    · rw [emDescend_step e (by omega)]
      exact ih (e * 4 / 5) (Nat.div_lt_of_lt_mul (by omega))

/-- The descent never goes below 29 = int(37 * 0.8) when started at or
above 29. -/
theorem emDescend_ge (e : ℕ) (h : 29 ≤ e) : 29 ≤ emDescend e := by
  induction e using Nat.strong_induction_on with
  | _ e ih =>
    by_cases h36 : e ≤ 36
    · rw [emDescend_of_le e h36]; exact h
    · rw [emDescend_step e (by omega)]
      exact ih (e * 4 / 5) (Nat.div_lt_of_lt_mul (by omega)) (by omega)

/-- If the emergency loop ends over budget, it returns exactly the floor
resolution of the 0.8-descent together with its rendering. -/
theorem emergency_over (render : ℕ → List ℕ) (budget : ℕ) :
    ∀ (fuel e : ℕ) (b : List ℕ), e ≤ fuel → b = render e →
      budget < (emergency render budget fuel e e b).1.2.length →
      (emergency render budget fuel e e b).1
        = (emDescend e, render (emDescend e)) := by
  intro fuel
  induction fuel with
  | zero =>
    intro e b he hb hover
    have h0 : e = 0 := by omega
    subst h0
    simp only [emergency]
    rw [emDescend_of_le 0 (by omega), hb]
  | succ f ih =>
    intro e b he hb hover
    simp only [emergency] at hover ⊢
    by_cases hc : b.length ≤ budget ∨ e ≤ 36
    · rw [if_pos hc] at hover ⊢
      have h36 : e ≤ 36 := by
        rcases hc with h | h
        · exact absurd hover (by simpa using h)
        · exact h
      rw [emDescend_of_le e h36, hb]
    · rw [if_neg hc] at hover ⊢
      push_neg at hc
      have hlt : e * 4 / 5 < e := Nat.div_lt_of_lt_mul (by omega)
      have := ih (e * 4 / 5) (render (e * 4 / 5)) (by omega) rfl (by
        simpa using hover)
      rw [emDescend_step e (by omega)]
      simpa using this

/-- The emergency loop never returns a DPI below 29 when entered at a
current DPI of at least 29. -/
theorem emergency_ge (render : ℕ → List ℕ) (budget : ℕ) :
    ∀ (fuel e cur : ℕ) (b : List ℕ), 29 ≤ cur →
      29 ≤ (emergency render budget fuel e cur b).1.1 := by
  intro fuel
  induction fuel with
  | zero => intro e cur b h; simpa [emergency]
  | succ f ih =>
    intro e cur b h
    simp only [emergency]
    by_cases hc : b.length ≤ budget ∨ e ≤ 36
    · simpa [hc]
    · rw [if_neg hc]
      push_neg at hc
      exact ih (e * 4 / 5) (e * 4 / 5) (render (e * 4 / 5)) (by omega)

/-- The emergency loop keeps the invariant that the held buffer is the
rendering of the held DPI. -/
theorem emergency_faithful (render : ℕ → List ℕ) (budget : ℕ) :
    ∀ (fuel e cur : ℕ) (b : List ℕ), b = render cur →
      (emergency render budget fuel e cur b).1.2
        = render (emergency render budget fuel e cur b).1.1 := by
  intro fuel
  induction fuel with
  | zero => intro e cur b h; simpa [emergency]
  | succ f ih =>
    intro e cur b h
    simp only [emergency]
    by_cases hc : b.length ≤ budget ∨ e ≤ 36
    · simpa [hc]
    · rw [if_neg hc]
      exact ih (e * 4 / 5) (e * 4 / 5) (render (e * 4 / 5)) rfl

-- ===========================================================================
-- Helper lemmas about the individual search phases
-- ===========================================================================

/-- The back-off loop keeps the buffer equal to the rendering of the
current DPI. -/
theorem backoff_faithful (render : ℕ → List ℕ) (scale : ℕ → ℕ → ℕ → ℕ)
    (budget minDpi : ℕ) :
    ∀ (fuel iter current : ℕ) (buf : List ℕ), buf = render current →
      (backoff render scale budget minDpi fuel iter current buf).1.2
        = render (backoff render scale budget minDpi fuel iter current buf).1.1 := by
  intro fuel
  induction fuel with
  | zero => intro iter current buf h; simpa [backoff]
  | succ f ih =>
    intro iter current buf h
    simp only [backoff]
    by_cases hc :
        (render (max minDpi (scale iter current buf.length))).length ≤ budget
    · simp [hc]
    · simp only [hc, if_false]
      exact ih (iter + 1) _ _ rfl

/-- The back-off loop never returns a DPI below min_dpi if started at or
above it. -/
theorem backoff_min (render : ℕ → List ℕ) (scale : ℕ → ℕ → ℕ → ℕ)
    (budget minDpi : ℕ) :
    ∀ (fuel iter current : ℕ) (buf : List ℕ), minDpi ≤ current →
      minDpi ≤ (backoff render scale budget minDpi fuel iter current buf).1.1 := by
  intro fuel
  induction fuel with
  | zero => intro iter current buf h; simpa [backoff]
  | succ f ih =>
    intro iter current buf h
    simp only [backoff]
    by_cases hc :
        (render (max minDpi (scale iter current buf.length))).length ≤ budget
    · simp [hc]
    · simp only [hc, if_false]
      exact ih (iter + 1) _ _ (le_max_left _ _)

/-- The downward bisection keeps the buffer equal to the rendering of the
current DPI. -/
theorem bisectDown_faithful (render : ℕ → List ℕ) (budget : ℕ) :
    ∀ (fuel low high current : ℕ) (buf : List ℕ), buf = render current →
      (bisectDown render budget fuel low high current buf).1.2
        = render (bisectDown render budget fuel low high current buf).1.1 := by
  intro fuel
  induction fuel with
  | zero => intro low high current buf h; simpa [bisectDown]
  | succ f ih =>
    intro low high current buf h
    simp only [bisectDown]
    by_cases hw : high - low ≤ 5
    · simpa [hw]
    · simp only [hw, if_false]
      by_cases hc : (render ((low + high) / 2)).length ≤ budget
      · simp only [hc, if_true]
        exact ih _ high _ _ rfl
      · simp only [hc, if_false]
        exact ih low _ _ _ h

/-- The downward bisection either holds an under-budget buffer or has
never replaced the state it was given. -/
theorem bisectDown_le_or_eq (render : ℕ → List ℕ) (budget : ℕ) :
    ∀ (fuel low high current : ℕ) (buf : List ℕ),
      (bisectDown render budget fuel low high current buf).1.2.length ≤ budget ∨
      (bisectDown render budget fuel low high current buf).1 = (current, buf) := by
  intro fuel
  induction fuel with
  | zero => intro low high current buf; right; simp [bisectDown]
  | succ f ih =>
    intro low high current buf
    simp only [bisectDown]
    by_cases hw : high - low ≤ 5
    · right; simp [hw]
    · simp only [hw, if_false]
      by_cases hc : (render ((low + high) / 2)).length ≤ budget
      · simp only [hc, if_true]
        rcases ih ((low + high) / 2) high ((low + high) / 2)
            (render ((low + high) / 2)) with h | h
        · left; simpa using h
        · left; simp only [h]; simpa using hc
      · simp only [hc, if_false]
        rcases ih low ((low + high) / 2) current buf with h | h
        · left; simpa using h
        · right; simpa using h

/-- The downward bisection never returns a DPI below a bound that is
below both endpoints of the invariant. -/
theorem bisectDown_ge (render : ℕ → List ℕ) (budget m : ℕ) :
    ∀ (fuel low high current : ℕ) (buf : List ℕ),
      m ≤ low → m ≤ current → low ≤ high →
      m ≤ (bisectDown render budget fuel low high current buf).1.1 := by
  intro fuel
  induction fuel with
  | zero => intro low high current buf h1 h2 h3; simpa [bisectDown]
  | succ f ih =>
    intro low high current buf h1 h2 h3
    simp only [bisectDown]
    by_cases hw : high - low ≤ 5
    · simpa [hw]
    · simp only [hw, if_false]
      by_cases hc : (render ((low + high) / 2)).length ≤ budget
      · simp only [hc, if_true]
        refine ih _ high _ _ (by omega) (by omega) (by omega)
      · simp only [hc, if_false]
        refine ih low _ current buf h1 h2 (by omega)

/-- The upward bisection keeps the buffer equal to the rendering of the
best DPI. -/
theorem bisectUp_faithful (render : ℕ → List ℕ) (budget : ℕ) :
    ∀ (fuel low high bestDpi : ℕ) (bestBuf : List ℕ), bestBuf = render bestDpi →
      (bisectUp render budget fuel low high bestDpi bestBuf).1.2
        = render (bisectUp render budget fuel low high bestDpi bestBuf).1.1 := by
  intro fuel
  induction fuel with
  | zero => intro low high bestDpi bestBuf h; simpa [bisectUp]
  | succ f ih =>
    intro low high bestDpi bestBuf h
    simp only [bisectUp]
    by_cases hw : high - low ≤ 10
    · simpa [hw]
    · simp only [hw, if_false]
      by_cases hc : (render ((low + high) / 2)).length ≤ budget
      · simp only [hc, if_true]
        exact ih _ high _ _ rfl
      · simp only [hc, if_false]
        exact ih low _ _ _ h

/-- The upward bisection either holds an under-budget buffer or has never
replaced the best state it was given. -/
theorem bisectUp_le_or_eq (render : ℕ → List ℕ) (budget : ℕ) :
    ∀ (fuel low high bestDpi : ℕ) (bestBuf : List ℕ),
      (bisectUp render budget fuel low high bestDpi bestBuf).1.2.length ≤ budget ∨
      (bisectUp render budget fuel low high bestDpi bestBuf).1
        = (bestDpi, bestBuf) := by
  intro fuel
  induction fuel with
  | zero => intro low high bestDpi bestBuf; right; simp [bisectUp]
  | succ f ih =>
    intro low high bestDpi bestBuf
    simp only [bisectUp]
    by_cases hw : high - low ≤ 10
    · right; simp [hw]
    · simp only [hw, if_false]
      by_cases hc : (render ((low + high) / 2)).length ≤ budget
      · simp only [hc, if_true]
        rcases ih ((low + high) / 2) high ((low + high) / 2)
            (render ((low + high) / 2)) with h | h
        · left; simpa using h
        · left; simp only [h]; simpa using hc
      · simp only [hc, if_false]
        rcases ih low ((low + high) / 2) bestDpi bestBuf with h | h
        · left; simpa using h
        · right; simpa using h

/-- The upward bisection never returns a DPI below a bound below both the
lower endpoint and the held best DPI. -/
theorem bisectUp_ge (render : ℕ → List ℕ) (budget m : ℕ) :
    ∀ (fuel low high bestDpi : ℕ) (bestBuf : List ℕ),
      m ≤ low → m ≤ bestDpi → low ≤ high →
      m ≤ (bisectUp render budget fuel low high bestDpi bestBuf).1.1 := by
  intro fuel
  induction fuel with
  | zero => intro low high bestDpi bestBuf h1 h2 h3; simpa [bisectUp]
  | succ f ih =>
    intro low high bestDpi bestBuf h1 h2 h3
    simp only [bisectUp]
    by_cases hw : high - low ≤ 10
    · simpa [hw]
    · simp only [hw, if_false]
      by_cases hc : (render ((low + high) / 2)).length ≤ budget
      · simp only [hc, if_true]
        refine ih _ high _ _ (by omega) (by omega) (by omega)
      · simp only [hc, if_false]
        refine ih low _ bestDpi bestBuf h1 h2 (by omega)

-- ===========================================================================
-- Helper lemmas about the phase wrappers and the whole search
-- ===========================================================================

/-- Phase 3 keeps the buffer equal to the rendering of the current DPI. -/
theorem phase3_faithful (render : ℕ → List ℕ) (budget minDpi : ℕ)
    (s : ℕ × List ℕ) (hf : s.2 = render s.1) :
    (phase3 render budget minDpi s).1.2
      = render (phase3 render budget minDpi s).1.1 := by
  simp only [phase3]
  split_ifs with h1 h2
  · simp
  · exact bisectDown_faithful render budget (s.1 - minDpi) minDpi s.1 s.1 s.2 hf
  · simpa

/-- Phase 3 never returns a DPI below min_dpi. -/
theorem phase3_ge (render : ℕ → List ℕ) (budget minDpi : ℕ)
    (s : ℕ × List ℕ) (hm : minDpi ≤ s.1) :
    minDpi ≤ (phase3 render budget minDpi s).1.1 := by
  simp only [phase3]
  split_ifs with h1 h2
  · simp
  · exact bisectDown_ge render budget minDpi (s.1 - minDpi) minDpi s.1 s.1 s.2
      le_rfl hm (le_of_lt h1.2)
  · simpa

/-- Phase 3 produces an under-budget buffer whenever rendering at min_dpi
is under budget. -/
theorem phase3_under (render : ℕ → List ℕ) (budget minDpi : ℕ)
    (s : ℕ × List ℕ) (hrm : (render minDpi).length ≤ budget)
    (hm : minDpi ≤ s.1) (hf : s.2 = render s.1) :
    (phase3 render budget minDpi s).1.2.length ≤ budget := by
  simp only [phase3]
  split_ifs with h1 h2
  · simpa
  · omega
  · rw [not_and_or] at h1
    rcases h1 with h | h
    · simpa using h
    · have hs1 : s.1 = minDpi := by omega
      rw [hf, hs1]
      exact hrm

/-- Phase 4 keeps the buffer equal to the rendering of the current DPI. -/
theorem phase4_faithful (render : ℕ → List ℕ) (budget maxDpi : ℕ)
    (s : ℕ × List ℕ) (hf : s.2 = render s.1) :
    (phase4 render budget maxDpi s).1.2
      = render (phase4 render budget maxDpi s).1.1 := by
  simp only [phase4]
  split_ifs with h1
  · exact bisectUp_faithful render budget _ s.1 _ s.1 s.2 hf
  · simpa

/-- Phase 4 never lowers the DPI below a bound below its input DPI. -/
theorem phase4_ge (render : ℕ → List ℕ) (budget maxDpi m : ℕ)
    (s : ℕ × List ℕ) (hm : m ≤ s.1) :
    m ≤ (phase4 render budget maxDpi s).1.1 := by
  simp only [phase4]
  split_ifs with h1
  · have hup : s.1 ≤ s.1 * 115 / 100 := by omega
    exact bisectUp_ge render budget m _ s.1 _ s.1 s.2 hm hm
      (le_min hup (le_of_lt h1.2))
  · simpa

/-- Phase 4 preserves being under budget. -/
theorem phase4_under (render : ℕ → List ℕ) (budget maxDpi : ℕ)
    (s : ℕ × List ℕ) (h : s.2.length ≤ budget) :
    (phase4 render budget maxDpi s).1.2.length ≤ budget := by
  simp only [phase4]
  split_ifs with h1
  · rcases bisectUp_le_or_eq render budget
        (min (s.1 * 115 / 100) maxDpi - s.1) s.1
        (min (s.1 * 115 / 100) maxDpi) s.1 s.2 with hh | hh
    · exact hh
    · rw [hh]
      exact h
  · simpa

/-- If Phase 5 ends over budget it returns the floor resolution of the
0.8-descent from min_dpi together with its rendering. -/
theorem phase5_over (render : ℕ → List ℕ) (budget minDpi : ℕ)
    (s : ℕ × List ℕ)
    (h : budget < (phase5 render budget minDpi s).1.2.length) :
    (phase5 render budget minDpi s).1
      = (emDescend minDpi, render (emDescend minDpi)) := by
  by_cases hc : budget < s.2.length
  · simp only [phase5, if_pos hc] at h ⊢
    exact emergency_over render budget minDpi minDpi (render minDpi) le_rfl rfl
      (by simpa using h)
  · simp only [phase5, if_neg hc] at h
    exact absurd h hc

/-- Phase 5 never returns a DPI below 29 for validated parameters. -/
theorem phase5_ge (render : ℕ → List ℕ) (budget minDpi : ℕ)
    (s : ℕ × List ℕ) (h36 : 36 < minDpi) (h29 : 29 ≤ s.1) :
    29 ≤ (phase5 render budget minDpi s).1.1 := by
  simp only [phase5]
  split_ifs with hc
  · exact emergency_ge render budget minDpi minDpi minDpi (render minDpi)
      (by omega)
  · simpa

/-- Phase 5 is the identity on under-budget states. -/
theorem phase5_under (render : ℕ → List ℕ) (budget minDpi : ℕ)
    (s : ℕ × List ℕ) (h : s.2.length ≤ budget) :
    (phase5 render budget minDpi s).1 = s := by
  simp only [phase5, if_neg (not_lt.mpr h)]

/-- Over-budget Phase-1 unfolding of the whole search into the phase
chain. -/
theorem search_result_chain (render : ℕ → List ℕ) (scale : ℕ → ℕ → ℕ → ℕ)
    (budget minDpi maxDpi : ℕ) (h1 : ¬ (render maxDpi).length ≤ budget) :
    (sizeLimitedSearch render scale budget minDpi maxDpi).1 =
      (phase5 render budget minDpi
        ((phase4 render budget maxDpi
          ((phase3 render budget minDpi
            ((backoff render scale budget minDpi 3 0 maxDpi
              (render maxDpi)).1)).1)).1)).1 := by
  simp only [sizeLimitedSearch, if_neg h1]

/-- If the search returns over budget, it returns the floor resolution of
the 0.8-descent from min_dpi and its rendering. -/
theorem search_over (render : ℕ → List ℕ) (scale : ℕ → ℕ → ℕ → ℕ)
    (budget minDpi maxDpi : ℕ)
    (h : budget < (sizeLimitedSearch render scale budget minDpi maxDpi).1.2.length) :
    (sizeLimitedSearch render scale budget minDpi maxDpi).1
      = (emDescend minDpi, render (emDescend minDpi)) := by
  by_cases h1 : (render maxDpi).length ≤ budget
  · exfalso
    simp only [sizeLimitedSearch, if_pos h1] at h
    omega
  · rw [search_result_chain render scale budget minDpi maxDpi h1]
    apply phase5_over
    rw [search_result_chain render scale budget minDpi maxDpi h1] at h
    exact h

-- ===========================================================================
-- Claims C1 - C4 (size-limited search)
-- ===========================================================================

/-- Claim C1 (budget respect): for every page and every parameter set with
quality_first = false, the byte buffer returned by the size-limited search
has length at most max_size_bytes, except in the single documented case in
which the search returns the resolution reached by scaling min_resolution
down to the absolute floor by factors of 0.8, whose encoding still exceeds
the budget.  Holds for every scale function, i.e. for every behaviour of
the floating-point Phase-2 step. -/
theorem c1_budget_respect (render : ℕ → List ℕ) (scale : ℕ → ℕ → ℕ → ℕ)
    (budget minDpi maxDpi : ℕ) :
    (convertPageWorker render scale budget minDpi maxDpi false).1.2.length
        ≤ budget ∨
    ((convertPageWorker render scale budget minDpi maxDpi false).1
        = (emDescend minDpi, render (emDescend minDpi)) ∧
      budget < (render (emDescend minDpi)).length) := by
  have hw : convertPageWorker render scale budget minDpi maxDpi false
      = sizeLimitedSearch render scale budget minDpi maxDpi := rfl
  by_cases hover :
      budget < (sizeLimitedSearch render scale budget minDpi maxDpi).1.2.length
  · right
    have heq := search_over render scale budget minDpi maxDpi hover
    refine ⟨by rw [hw, heq], ?_⟩
    rw [heq] at hover
    exact hover
  · left
    rw [hw]
    omega

/-- Claim C2 (quality-first bypass): with quality_first = true the worker
performs exactly one render+encode call, at max_resolution, returns that
result unconditionally, and the outcome is independent of the byte budget
(no comparison against it occurs). -/
theorem c2_quality_first_bypass (render : ℕ → List ℕ)
    (scale : ℕ → ℕ → ℕ → ℕ) (budget budget2 minDpi maxDpi : ℕ) :
    (convertPageWorker render scale budget minDpi maxDpi true).2 = [maxDpi] ∧
    (convertPageWorker render scale budget minDpi maxDpi true).1
      = (maxDpi, render maxDpi) ∧
    convertPageWorker render scale budget minDpi maxDpi true
      = convertPageWorker render scale budget2 minDpi maxDpi true :=
  ⟨rfl, rfl, rfl⟩

/-- Claim C3, counterexample: with validated parameters min_dpi = max_dpi
= 93 (inside the global 72-2400 range), a 1-byte budget and an encoder
that always produces 2 bytes, the emergency loop runs 93 -> 74 -> 59 ->
47 -> 37 -> 29 and the search returns resolution 29, strictly below the
claimed floor of 36.  scaleC3 holds the values of the floating-point
Phase-2 step on this run; they are all clamped away by max(min_dpi, .). -/
theorem c3_floor_counterexample :
    validate_dpi_range 93 93 = true ∧
    1 < (renderC3 93).length ∧
    (convertPageWorker renderC3 scaleC3 1 93 93 false).1.1 = 29 ∧
    (convertPageWorker renderC3 scaleC3 1 93 93 false).1.1 < 36 := by
  refine ⟨by decide, by decide, by decide, by decide⟩

/-- Claim C3, amended: whenever the render at min_resolution still exceeds
the budget, the search repeatedly scales the resolution down by 0.8,
stopping only when the encoded size meets the budget or the resolution
has reached (or just passed) the absolute floor of 36; the returned
resolution can lie one 0.8-step below that floor, but never below
29 = int(37 * 0.8): for validated parameters the returned resolution is
always at least 29, and whenever the returned bytes are over budget the
returned resolution is at most 36. -/
theorem c3_floor_amended (render : ℕ → List ℕ) (scale : ℕ → ℕ → ℕ → ℕ)
    (budget minDpi maxDpi : ℕ) (h36 : 36 < minDpi) (hmm : minDpi ≤ maxDpi) :
    29 ≤ (convertPageWorker render scale budget minDpi maxDpi false).1.1 ∧
    (budget <
        (convertPageWorker render scale budget minDpi maxDpi false).1.2.length →
      (convertPageWorker render scale budget minDpi maxDpi false).1.1 ≤ 36) := by
  have hw : convertPageWorker render scale budget minDpi maxDpi false
      = sizeLimitedSearch render scale budget minDpi maxDpi := rfl
  constructor
  · rw [hw]
    by_cases h1 : (render maxDpi).length ≤ budget
    · simp only [sizeLimitedSearch, if_pos h1]
      omega
    · rw [search_result_chain render scale budget minDpi maxDpi h1]
      have hb2 : minDpi ≤ (backoff render scale budget minDpi 3 0 maxDpi
          (render maxDpi)).1.1 :=
        backoff_min render scale budget minDpi 3 0 maxDpi (render maxDpi) hmm
      have hb3 : minDpi ≤ (phase3 render budget minDpi
          ((backoff render scale budget minDpi 3 0 maxDpi
            (render maxDpi)).1)).1.1 :=
        phase3_ge render budget minDpi _ hb2
      have hb4 : minDpi ≤ (phase4 render budget maxDpi
          ((phase3 render budget minDpi
            ((backoff render scale budget minDpi 3 0 maxDpi
              (render maxDpi)).1)).1)).1.1 :=
        phase4_ge render budget maxDpi minDpi _ hb3
      exact phase5_ge render budget minDpi _ h36 (by omega)
  · intro hover
    rw [hw] at hover ⊢
    rw [search_over render scale budget minDpi maxDpi hover]
    exact emDescend_le minDpi

/-- Claim C3, amended, witness at the counterexample instance. -/
theorem c3_floor_amended_witness :
    29 ≤ (convertPageWorker renderC3 scaleC3 1 93 93 false).1.1 ∧
    (1 < (convertPageWorker renderC3 scaleC3 1 93 93 false).1.2.length →
      (convertPageWorker renderC3 scaleC3 1 93 93 false).1.1 ≤ 36) :=
  c3_floor_amended renderC3 scaleC3 1 93 93 (by decide) (by decide)

/-- The C4 fixture encoder is strictly monotone in the resolution. -/
theorem renderC4_strictMono : StrictMono (fun d => (renderC4 d).length) := by
  intro a b hab
  simp only [renderC4, List.length_replicate, encC4]
  split_ifs <;> omega

/-- Claim C4, counterexample: a strictly monotone encoder with a threshold
resolution (90, with budget 95) inside the validated range [72, 120], on
which the search returns resolution 72 with 77 bytes: 81 percent of the
budget (violating the claimed 90 percent utilization), and more than a
bisection-granularity away from the threshold (the encoding even 11 units
above the returned resolution is still within budget).  The geometric
back-off lands under budget at the clamp min_dpi = 72 and Phase 4 only
explores up to int(72 * 1.15) = 82 (an interval of width 10, which the
upward bisection does not even enter), so the search never approaches the
threshold 90.  scaleC4 holds the value of the floating-point Phase-2 step
on this run. -/
theorem c4_utilization_counterexample :
    StrictMono (fun d => (renderC4 d).length) ∧
    validate_dpi_range 72 120 = true ∧
    72 ≤ 90 ∧ 90 ≤ 120 ∧
    (renderC4 90).length ≤ 95 ∧ 95 < (renderC4 91).length ∧
    (convertPageWorker renderC4 scaleC4 95 72 120 false).1.1 = 72 ∧
    (convertPageWorker renderC4 scaleC4 95 72 120 false).1.2.length * 10
      < 95 * 9 ∧
    (renderC4 (72 + 11)).length ≤ 95 := by
  refine ⟨renderC4_strictMono, by decide, by decide, by decide, by decide,
    by decide, by decide, by decide, by decide⟩

/-- Claim C4, amended: under a strictly monotone encoder with a threshold
resolution rstar in [min_resolution, max_resolution] (encoding at rstar
within budget, at rstar + 1 over budget), the search with quality_first =
false returns bytes within the budget and a resolution that never exceeds
rstar; convergence to within bisection granularity of rstar and the
90-percent utilization bound do not hold in general, because the
geometric back-off can land under budget far below rstar and the upward
phase only explores up to 1.15 times that landing point. -/
theorem c4_monotone_amended (render : ℕ → List ℕ) (scale : ℕ → ℕ → ℕ → ℕ)
    (budget minDpi maxDpi rstar : ℕ)
    (hmono : StrictMono (fun d => (render d).length))
    (hlo : minDpi ≤ rstar) (hhi : rstar ≤ maxDpi)
    (hb1 : (render rstar).length ≤ budget)
    (hb2 : budget < (render (rstar + 1)).length) :
    (convertPageWorker render scale budget minDpi maxDpi false).1.2.length
      ≤ budget ∧
    (convertPageWorker render scale budget minDpi maxDpi false).1.1
      ≤ rstar := by
  have hw : convertPageWorker render scale budget minDpi maxDpi false
      = sizeLimitedSearch render scale budget minDpi maxDpi := rfl
  have hminlen : (render minDpi).length ≤ budget :=
    le_trans (hmono.monotone hlo) hb1
  by_cases h1 : (render maxDpi).length ≤ budget
  · constructor
    · rw [hw]
      simp only [sizeLimitedSearch, if_pos h1]
      exact h1
    · rw [hw]
      simp only [sizeLimitedSearch, if_pos h1]
      have hlt : (render maxDpi).length < (render (rstar + 1)).length := by
        omega
      have := hmono.lt_iff_lt.mp hlt
      omega
  · have hchain := search_result_chain render scale budget minDpi maxDpi h1
    have hf2 : (backoff render scale budget minDpi 3 0 maxDpi
        (render maxDpi)).1.2 = render (backoff render scale budget minDpi 3 0
          maxDpi (render maxDpi)).1.1 :=
      backoff_faithful render scale budget minDpi 3 0 maxDpi (render maxDpi)
        rfl
    have hm2 : minDpi ≤ (backoff render scale budget minDpi 3 0 maxDpi
        (render maxDpi)).1.1 :=
      backoff_min render scale budget minDpi 3 0 maxDpi (render maxDpi)
        (le_trans hlo hhi)
    have h3u : (phase3 render budget minDpi
        ((backoff render scale budget minDpi 3 0 maxDpi
          (render maxDpi)).1)).1.2.length ≤ budget :=
      phase3_under render budget minDpi _ hminlen hm2 hf2
    have hf3 : (phase3 render budget minDpi
        ((backoff render scale budget minDpi 3 0 maxDpi
          (render maxDpi)).1)).1.2
        = render (phase3 render budget minDpi
            ((backoff render scale budget minDpi 3 0 maxDpi
              (render maxDpi)).1)).1.1 :=
      phase3_faithful render budget minDpi _ hf2
    have h4u : (phase4 render budget maxDpi
        ((phase3 render budget minDpi
          ((backoff render scale budget minDpi 3 0 maxDpi
            (render maxDpi)).1)).1)).1.2.length ≤ budget :=
      phase4_under render budget maxDpi _ h3u
    have hf4 : (phase4 render budget maxDpi
        ((phase3 render budget minDpi
          ((backoff render scale budget minDpi 3 0 maxDpi
            (render maxDpi)).1)).1)).1.2
        = render (phase4 render budget maxDpi
            ((phase3 render budget minDpi
              ((backoff render scale budget minDpi 3 0 maxDpi
                (render maxDpi)).1)).1)).1.1 :=
      phase4_faithful render budget maxDpi _ hf3
    have h5 : (phase5 render budget minDpi
        ((phase4 render budget maxDpi
          ((phase3 render budget minDpi
            ((backoff render scale budget minDpi 3 0 maxDpi
              (render maxDpi)).1)).1)).1)).1
        = (phase4 render budget maxDpi
            ((phase3 render budget minDpi
              ((backoff render scale budget minDpi 3 0 maxDpi
                (render maxDpi)).1)).1)).1 :=
      phase5_under render budget minDpi _ h4u
    constructor
    · rw [hw, hchain, h5]
      exact h4u
    · rw [hw, hchain, h5]
      have hlen : (render (phase4 render budget maxDpi
          ((phase3 render budget minDpi
            ((backoff render scale budget minDpi 3 0 maxDpi
              (render maxDpi)).1)).1)).1.1).length ≤ budget := by
        rw [← hf4]
        exact h4u
      have hlt : (render (phase4 render budget maxDpi
          ((phase3 render budget minDpi
            ((backoff render scale budget minDpi 3 0 maxDpi
              (render maxDpi)).1)).1)).1.1).length
          < (render (rstar + 1)).length := by
        omega
      have := hmono.lt_iff_lt.mp hlt
      omega

/-- Claim C4, amended, witness at the counterexample instance. -/
theorem c4_monotone_amended_witness :
    (convertPageWorker renderC4 scaleC4 95 72 120 false).1.2.length ≤ 95 ∧
    (convertPageWorker renderC4 scaleC4 95 72 120 false).1.1 ≤ 90 :=
  c4_monotone_amended renderC4 scaleC4 95 72 120 90 renderC4_strictMono
    (by decide) (by decide) (by decide) (by decide)

-- ===========================================================================
-- Claim C9 (sequential/parallel equivalence)
-- ===========================================================================

/-- The sequential copy of the Phase-2 loop equals the worker's. -/
theorem seqBackoff_eq (render : ℕ → List ℕ) (scale : ℕ → ℕ → ℕ → ℕ)
    (budget minDpi : ℕ) :
    ∀ (fuel iter current : ℕ) (buf : List ℕ),
      seqBackoff render scale budget minDpi fuel iter current buf
        = backoff render scale budget minDpi fuel iter current buf := by
  intro fuel
  induction fuel with
  | zero => intro iter current buf; rfl
  | succ f ih =>
    intro iter current buf
    simp only [seqBackoff, backoff, ih]

/-- The sequential copy of the Phase-3 bisection equals the worker's. -/
theorem seqBisectDown_eq (render : ℕ → List ℕ) (budget : ℕ) :
    ∀ (fuel low high current : ℕ) (buf : List ℕ),
      seqBisectDown render budget fuel low high current buf
        = bisectDown render budget fuel low high current buf := by
  intro fuel
  induction fuel with
  | zero => intro low high current buf; rfl
  | succ f ih =>
    intro low high current buf
    simp only [seqBisectDown, bisectDown, ih]

/-- The sequential copy of the Phase-4 bisection equals the worker's. -/
theorem seqBisectUp_eq (render : ℕ → List ℕ) (budget : ℕ) :
    ∀ (fuel low high bestDpi : ℕ) (bestBuf : List ℕ),
      seqBisectUp render budget fuel low high bestDpi bestBuf
        = bisectUp render budget fuel low high bestDpi bestBuf := by
  intro fuel
  induction fuel with
  | zero => intro low high bestDpi bestBuf; rfl
  | succ f ih =>
    intro low high bestDpi bestBuf
    simp only [seqBisectUp, bisectUp, ih]

/-- The sequential copy of the Phase-5 emergency loop equals the
worker's. -/
theorem seqEmergency_eq (render : ℕ → List ℕ) (budget : ℕ) :
    ∀ (fuel e cur : ℕ) (buf : List ℕ),
      seqEmergency render budget fuel e cur buf
        = emergency render budget fuel e cur buf := by
  intro fuel
  induction fuel with
  | zero => intro e cur buf; rfl
  | succ f ih =>
    intro e cur buf
    simp only [seqEmergency, emergency, ih]

/-- The sequential method is the size-limited search run at the head of
the dpi_levels ladder. -/
theorem seqRenderWithSizeLimit_eq (render : ℕ → List ℕ)
    (scale : ℕ → ℕ → ℕ → ℕ) (budget : ℕ) (dpiLevels : List ℕ)
    (minDpi : ℕ) :
    seqRenderWithSizeLimit render scale budget dpiLevels minDpi
      = sizeLimitedSearch render scale budget minDpi (dpiLevels.headD 0) := by
  simp only [seqRenderWithSizeLimit, sizeLimitedSearch, phase3, phase4,
    phase5, seqBackoff_eq, seqBisectDown_eq, seqBisectUp_eq, seqEmergency_eq]

/-- The head of the descending DPI ladder is max_dpi whenever
min_dpi ≤ max_dpi. -/
theorem generate_dpi_levels_head (minDpi maxDpi step : ℕ)
    (h : minDpi ≤ maxDpi) :
    (generate_dpi_levels minDpi maxDpi false step).headD 0 = maxDpi := by
  simp only [generate_dpi_levels, dpiLadder, if_pos h, Bool.false_eq_true,
    if_false]
  split <;> simp

/-- Claim C9 (sequential/parallel equivalence): for every page, every
scale behaviour and every budget, the search executed by the sequential
method _render_with_size_limit on the generated dpi_levels ladder returns
exactly what the parallel worker _convert_page_worker returns in
size-limited mode: the two code paths implement the same
phase-0-through-5 algorithm. -/
theorem c9_seq_parallel_equiv (render : ℕ → List ℕ)
    (scale : ℕ → ℕ → ℕ → ℕ) (budget minDpi maxDpi step : ℕ)
    (h : minDpi ≤ maxDpi) :
    seqRenderWithSizeLimit render scale budget
        (generate_dpi_levels minDpi maxDpi false step) minDpi
      = convertPageWorker render scale budget minDpi maxDpi false := by
  rw [seqRenderWithSizeLimit_eq,
    generate_dpi_levels_head minDpi maxDpi step h]
  rfl

/-- Claim C9, witness at a concrete page. -/
theorem c9_seq_parallel_equiv_witness :
    seqRenderWithSizeLimit (fun d => List.replicate d 0) (fun _ _ _ => 90)
        80 (generate_dpi_levels 72 100 false 25) 72
      = convertPageWorker (fun d => List.replicate d 0) (fun _ _ _ => 90)
          80 72 100 false :=
  c9_seq_parallel_equiv (fun d => List.replicate d 0) (fun _ _ _ => 90)
    80 72 100 25 (by decide)

-- ===========================================================================
-- Helper lemmas about the parallel aggregation
-- ===========================================================================

/-- One collection step does not change the slot count. -/
theorem collectOutcome_slots_length (o : ℕ → PageTuple) (st : ParallelAgg)
    (page : ℕ) :
    (collectOutcome o st page).slots.length = st.slots.length := by
  unfold collectOutcome
  cases h : (o page).err <;> simp

/-- Folding collection steps does not change the slot count. -/
theorem foldl_collect_slots_length (o : ℕ → PageTuple) :
    ∀ (order : List ℕ) (st : ParallelAgg),
      ((order.foldl (collectOutcome o) st).slots).length = st.slots.length := by
  intro order
  induction order with
  | nil => intro st; rfl
  | cons p rest ih =>
    intro st
    rw [List.foldl_cons, ih, collectOutcome_slots_length]

/-- Pointwise description of the slot list after the completion loop: a
slot holds a path exactly when its page occurs in the completion order
and succeeded; all other slots are untouched. -/
theorem foldl_collect_slots_getElem (o : ℕ → PageTuple) :
    ∀ (order : List ℕ) (st : ParallelAgg) (i : ℕ),
      (∀ p ∈ order, p < st.slots.length) →
      ((order.foldl (collectOutcome o) st).slots)[i]? =
        if i ∈ order ∧ (o i).err = none then some (some ((o i).path))
        else st.slots[i]? := by
  intro order
  induction order with
  | nil => intro st i h; simp
  | cons p rest ih =>
    intro st i h
    rw [List.foldl_cons]
    rw [ih (collectOutcome o st p) i (fun q hq => by
      rw [collectOutcome_slots_length]
      exact h q (List.mem_cons_of_mem p hq))]
    by_cases hmem : i ∈ rest ∧ (o i).err = none
    · rw [if_pos hmem, if_pos ⟨List.mem_cons_of_mem p hmem.1, hmem.2⟩]
    · rw [if_neg hmem]
      unfold collectOutcome
      cases herr : (o p).err with
      | some e =>
        simp only
        by_cases hip : i = p
        · subst hip
          rw [if_neg]
          intro hcon
          rw [hcon.2] at herr
          exact Option.noConfusion herr
        · rw [if_neg]
          intro hcon
          rcases List.mem_cons.mp hcon.1 with h1 | h1
          · exact hip h1
          · exact hmem ⟨h1, hcon.2⟩
      | none =>
        simp only
        rw [List.getElem?_set]
        by_cases hip : p = i
        · subst hip
          rw [if_pos rfl, if_pos (h p (List.mem_cons_self p rest)),
            if_pos ⟨List.mem_cons_self p rest, herr⟩]
        · rw [if_neg hip, if_neg]
          intro hcon
          rcases List.mem_cons.mp hcon.1 with h1 | h1
          · exact hip h1.symm
          · exact hmem ⟨h1, hcon.2⟩

/-- The dpi_list collected by the completion loop: the DPIs of the
successful pages, in completion order. -/
theorem foldl_collect_dpiList (o : ℕ → PageTuple) :
    ∀ (order : List ℕ) (st : ParallelAgg),
      (order.foldl (collectOutcome o) st).dpiList =
        st.dpiList ++
          (order.filter (fun p => ((o p).err).isNone)).map
            (fun p => (o p).dpi) := by
  intro order
  induction order with
  | nil => intro st; simp
  | cons p rest ih =>
    intro st
    rw [List.foldl_cons, ih]
    unfold collectOutcome
    cases herr : (o p).err with
    | some e => simp [herr, List.filter_cons]
    | none => simp [herr, List.filter_cons]

/-- The error list collected by the completion loop: one entry per failed
page, in completion order. -/
theorem foldl_collect_errors (o : ℕ → PageTuple) :
    ∀ (order : List ℕ) (st : ParallelAgg),
      (order.foldl (collectOutcome o) st).errors =
        st.errors ++
          (order.filter (fun p => ((o p).err).isSome)).map
            (fun p => (p, ((o p).err).getD "")) := by
  intro order
  induction order with
  | nil => intro st; simp
  | cons p rest ih =>
    intro st
    rw [List.foldl_cons, ih]
    unfold collectOutcome
    cases herr : (o p).err with
    | some e => simp [herr, List.filter_cons]
    | none => simp [herr, List.filter_cons]

/-- Filtering an if-option through filterMap is mapping over the filter. -/
theorem filterMap_ite_eq_filter_map {α : Type} (l : List ℕ) (p : ℕ → Bool)
    (f : ℕ → α) :
    l.filterMap (fun i => if p i then some (f i) else none)
      = (l.filter p).map f := by
  induction l with
  | nil => rfl
  | cons a t ih =>
    by_cases h : p a
    · simp [List.filterMap_cons, List.filter_cons, h, ih]
    · simp [List.filterMap_cons, List.filter_cons, h, ih]

/-- The output file list of the parallel aggregation is always the list
of successful pages' paths in ascending page order, independently of the
completion order. -/
theorem convert_parallel_files (o : ℕ → PageTuple) (n : ℕ)
    (order : List ℕ) (maxDpi : ℕ) (hperm : order.Perm (List.range n)) :
    (convert_parallel o n order maxDpi).files =
      (List.range n).filterMap
        (fun i => if (o i).err = none then some ((o i).path) else none) := by
  have hb : ∀ p ∈ order, p < (ParallelAgg.mk
      (List.replicate n (none : Option String)) [] []).slots.length := by
    intro p hp
    simpa using List.mem_range.mp (hperm.mem_iff.mp hp)
  have hs : (order.foldl (collectOutcome o)
      (ParallelAgg.mk (List.replicate n none) [] [])).slots
      = (List.range n).map
          (fun i => if (o i).err = none then some ((o i).path) else none) := by
    apply List.ext_getElem?
    intro i
    rw [foldl_collect_slots_getElem o order _ i hb]
    rw [List.getElem?_map]
    by_cases hin : i < n
    · rw [List.getElem?_range hin]
      have hmem : i ∈ order ↔ i < n := by
        rw [hperm.mem_iff, List.mem_range]
      by_cases hsucc : (o i).err = none
      · rw [if_pos ⟨hmem.mpr hin, hsucc⟩]
        simp [hsucc]
      · rw [if_neg (fun hcon => hsucc hcon.2)]
        simp [hsucc, List.getElem?_replicate, hin]
    · have hmem : i ∉ order := fun hcon =>
        hin (List.mem_range.mp (hperm.mem_iff.mp hcon))
      rw [if_neg (fun hcon => hmem hcon.1)]
      have h1 : (List.replicate n (none : Option String))[i]? = none := by
        simp [List.getElem?_replicate]
        omega
      have h2 : (List.range n)[i]? = none := by
        rw [List.getElem?_eq_none]
        simpa using hin
      simp only [ParallelAgg.mk.injEq] at *
      rw [h1, h2]
      rfl
  unfold convert_parallel
  simp only
  rw [hs, List.filterMap_map]
  rfl

/-- Claim C5 (output ordering): for every document, every outcome
assignment and every completion order of the page tasks, the aggregated
output path list is the successful pages' paths in ascending page-index
order; the completion order never affects it. -/
theorem c5_output_ordering (o : ℕ → PageTuple) (n : ℕ) (order : List ℕ)
    (maxDpi : ℕ) (hperm : order.Perm (List.range n)) :
    (convert_parallel o n order maxDpi).files =
      (List.range n).filterMap
        (fun i => if (o i).err = none then some ((o i).path) else none) :=
  convert_parallel_files o n order maxDpi hperm

/-- Claim C5, witness: three pages completing in the order 2, 0, 1 still
produce the ascending output list. -/
theorem c5_output_ordering_witness :
    (convert_parallel (fun i => PageTuple.mk ("page") (100 + i) none) 3
        [2, 0, 1] 600).files =
      (List.range 3).filterMap
        (fun i => if (PageTuple.mk ("page") (100 + i) none).err = none
          then some ((PageTuple.mk ("page") (100 + i) none).path)
          else none) :=
  c5_output_ordering (fun i => PageTuple.mk ("page") (100 + i) none) 3
    [2, 0, 1] 600 (by decide)

/-- Filtering for equality with a value yields that value replicated
count-many times. -/
theorem filter_beq_eq_replicate (l : List ℕ) (k : ℕ) :
    l.filter (fun p => p == k) = List.replicate (l.count k) k := by
  induction l with
  | nil => rfl
  | cons a t ih =>
    by_cases h : a = k
    · subst h
      simp [List.filter_cons, List.count_cons, ih, List.replicate_succ]
    · simp [List.filter_cons, List.count_cons, h, ih]

/-- Congruence for filterMap restricted to the list members. -/
theorem filterMap_congr_mem {α β : Type} (l : List α) (f g : α → Option β)
    (h : ∀ a ∈ l, f a = g a) : l.filterMap f = l.filterMap g := by
  induction l with
  | nil => rfl
  | cons a t ih =>
    rw [List.filterMap_cons, List.filterMap_cons,
      h a (List.mem_cons_self a t),
      ih (fun b hb => h b (List.mem_cons_of_mem a hb))]

/-- Claim C6 (failure isolation): in an n-page run in which exactly page k
fails (its worker returns an error tuple with DPI 0, converter.py line
179) and all other pages succeed, the aggregation yields exactly one
error entry, naming page k; the output list is the success-run output
list with page k's entry removed (all other pages keep their paths, in
ascending page order); and every sibling page contributes exactly the
same DPI as in the run where page k succeeds.  This holds for every
completion order: no failure aborts or cancels sibling tasks. -/
theorem c6_failure_isolation (n k maxDpi : ℕ) (path : ℕ → String)
    (dpi : ℕ → ℕ) (m : String) (order : List ℕ) (o oS : ℕ → PageTuple)
    (hk : k < n) (hperm : order.Perm (List.range n))
    (ho : ∀ i, o i = if i = k then PageTuple.mk (path i) 0 (some m)
      else PageTuple.mk (path i) (dpi i) none)
    (hoS : ∀ i, oS i = PageTuple.mk (path i) (dpi i) none) :
    (convert_parallel o n order maxDpi).errors = [(k, m)] ∧
    (convert_parallel o n order maxDpi).files
      = ((List.range n).filter (fun i => !(i == k))).map path ∧
    (convert_parallel oS n order maxDpi).files = (List.range n).map path ∧
    (convert_parallel o n order maxDpi).dpiList
      = (order.filter (fun p => !(p == k))).map dpi ∧
    (convert_parallel oS n order maxDpi).dpiList = order.map dpi := by
  have hcount : order.count k = 1 := by
    rw [hperm.count_eq k]
    exact List.count_eq_one_of_mem (List.nodup_range n)
      (List.mem_range.mpr hk)
  refine ⟨?_, ?_, ?_, ?_, ?_⟩
  · unfold convert_parallel
    simp only
    rw [foldl_collect_errors]
    rw [List.filter_congr (q := fun p => p == k) (fun p _ => by
      rw [ho p]
      by_cases h : p = k <;> simp [h])]
    rw [filter_beq_eq_replicate, hcount]
    simp [ho k]
  · rw [convert_parallel_files o n order maxDpi hperm]
    rw [filterMap_congr_mem _ _
      (fun i => if !(i == k) then some (path i) else none)
      (fun i _ => by
        rw [ho i]
        by_cases h : i = k <;> simp [h])]
    exact filterMap_ite_eq_filter_map (List.range n) (fun i => !(i == k)) path
  · rw [convert_parallel_files oS n order maxDpi hperm]
    rw [filterMap_congr_mem _ _ (fun i => some (path i))
      (fun i _ => by simp [hoS i])]
    rw [show (fun i => some (path i)) = some ∘ path from rfl]
    rw [List.filterMap_eq_map]
  · unfold convert_parallel
    simp only
    rw [foldl_collect_dpiList]
    rw [List.filter_congr (q := fun p => !(p == k)) (fun p _ => by
      rw [ho p]
      by_cases h : p = k <;> simp [h])]
    rw [List.nil_append]
    apply List.map_congr_left
    intro a ha
    have hak : ¬ (a = k) := by
      have := (List.mem_filter.mp ha).2
      simpa using this
    rw [ho a, if_neg hak]
  · unfold convert_parallel
    simp only
    rw [foldl_collect_dpiList]
    rw [List.filter_congr (q := fun _ => true) (fun p _ => by
      rw [hoS p]
      rfl)]
    rw [List.filter_true, List.nil_append]
    apply List.map_congr_left
    intro a _
    rw [hoS a]

/-- Claim C6, witness: four pages, page 1 failing, completion order
3, 1, 0, 2. -/
theorem c6_failure_isolation_witness :
    (convert_parallel
        (fun i => if i = 1 then PageTuple.mk ("p") 0 (some ("boom"))
          else PageTuple.mk ("p") (200 + i) none) 4 [3, 1, 0, 2]
        600).errors = [(1, "boom")] ∧
    (convert_parallel
        (fun i => if i = 1 then PageTuple.mk ("p") 0 (some ("boom"))
          else PageTuple.mk ("p") (200 + i) none) 4 [3, 1, 0, 2]
        600).files
      = ((List.range 4).filter (fun i => !(i == 1))).map
          (fun _ => ("p" : String)) ∧
    (convert_parallel (fun i => PageTuple.mk ("p") (200 + i) none) 4
        [3, 1, 0, 2] 600).files
      = (List.range 4).map (fun _ => ("p" : String)) ∧
    (convert_parallel
        (fun i => if i = 1 then PageTuple.mk ("p") 0 (some ("boom"))
          else PageTuple.mk ("p") (200 + i) none) 4 [3, 1, 0, 2]
        600).dpiList
      = ([3, 1, 0, 2].filter (fun p => !(p == 1))).map (fun i => 200 + i) ∧
    (convert_parallel (fun i => PageTuple.mk ("p") (200 + i) none) 4
        [3, 1, 0, 2] 600).dpiList
      = [3, 1, 0, 2].map (fun i => 200 + i) :=
  c6_failure_isolation 4 1 600 (fun _ => ("p" : String)) (fun i => 200 + i)
    ("boom") [3, 1, 0, 2] _ _ (by decide) (by decide) (fun _ => rfl)
    (fun _ => rfl)

/-- Claim C7 (zero-success default): when no page succeeds, both the
parallel and the sequential aggregation return an empty output list and
resolution_min = resolution_max = max_resolution (a defined default, not
a sentinel). -/
theorem c7_zero_success_default (o : ℕ → PageTuple)
    (so : ℕ → Option (String × ℕ)) (n maxDpi : ℕ) (order : List ℕ)
    (hperm : order.Perm (List.range n))
    (hfail : ∀ i, ((o i).err).isSome) (hsfail : ∀ i, so i = none) :
    ((convert_parallel o n order maxDpi).files = [] ∧
     (convert_parallel o n order maxDpi).dpiMin = maxDpi ∧
     (convert_parallel o n order maxDpi).dpiMax = maxDpi) ∧
    ((convert_sequential so n maxDpi).files = [] ∧
     (convert_sequential so n maxDpi).dpiMin = maxDpi ∧
     (convert_sequential so n maxDpi).dpiMax = maxDpi) := by
  have hdpi : (order.foldl (collectOutcome o)
      (ParallelAgg.mk (List.replicate n none) [] [])).dpiList = [] := by
    rw [foldl_collect_dpiList]
    rw [List.filter_congr (q := fun _ => false) (fun p _ => by
      have := hfail p
      cases h : (o p).err with
      | none => rw [h] at this; exact absurd this (by simp)
      | some e => simp [h])]
    simp
  refine ⟨⟨?_, ?_, ?_⟩, ?_⟩
  · rw [convert_parallel_files o n order maxDpi hperm]
    apply List.filterMap_eq_nil_iff.mpr
    intro i _
    have := hfail i
    cases h : (o i).err with
    | none => rw [h] at this; exact absurd this (by simp)
    | some e => simp [h]
  · unfold convert_parallel
    simp only
    rw [hdpi]
    rfl
  · unfold convert_parallel
    simp only
    rw [hdpi]
    rfl
  · have key : ∀ (l : List ℕ) (st : List String × List ℕ),
        l.foldl (fun (st : List String × List ℕ) i =>
          match so i with
          | some pd => (st.1 ++ [pd.1], st.2 ++ [pd.2])
          | none => st) st = st := by
      intro l
      induction l with
      | nil => intro st; rfl
      | cons a t ih =>
        intro st
        rw [List.foldl_cons]
        simp only [hsfail a]
        exact ih st
    unfold convert_sequential
    simp [key, pyListMin, pyListMax]

/-- Claim C7, witness: two pages, both failing, completion order 1, 0. -/
theorem c7_zero_success_default_witness :
    ((convert_parallel (fun _ => PageTuple.mk ("p") 0 (some ("x"))) 2
        [1, 0] 600).files = [] ∧
     (convert_parallel (fun _ => PageTuple.mk ("p") 0 (some ("x"))) 2
        [1, 0] 600).dpiMin = 600 ∧
     (convert_parallel (fun _ => PageTuple.mk ("p") 0 (some ("x"))) 2
        [1, 0] 600).dpiMax = 600) ∧
    ((convert_sequential (fun _ => none) 2 600).files = [] ∧
     (convert_sequential (fun _ => none) 2 600).dpiMin = 600 ∧
     (convert_sequential (fun _ => none) 2 600).dpiMax = 600) :=
  c7_zero_success_default (fun _ => PageTuple.mk ("p") 0 (some ("x")))
    (fun _ => none) 2 600 [1, 0] (by decide) (fun _ => rfl) (fun _ => rfl)

-- ===========================================================================
-- Claims C8 and C10 (configuration validation)
-- ===========================================================================

/-- Claim C8 (fail-closed configuration validation): for every invalid
parameter set (budget ≤ 0, DPI range invalid because min > max or a bound
is outside the global 72-2400 range, or compress level outside [0, 9]),
convert returns a synchronous error before any render or encode call is
made (the render trace is empty) and produces no result in which a
default could have been substituted. -/
theorem c8_fail_closed_validation (render : ℕ → ℕ → List ℕ)
    (scale : ℕ → ℕ → ℕ → ℕ) (n : ℕ) (mb : ℚ) (minDpi maxDpi : ℤ)
    (qf : Bool) (level : ℤ)
    (h : mb ≤ 0 ∨ validate_dpi_range minDpi maxDpi = false ∨
      ¬(0 ≤ level ∧ level ≤ 9)) :
    (∃ e, (convertRun render scale true n mb minDpi maxDpi qf level).1
      = Except.error e) ∧
    (convertRun render scale true n mb minDpi maxDpi qf level).2 = [] := by
  unfold convertRun
  rw [if_neg (by simp)]
  by_cases h1 : mb ≤ 0
  · rw [if_pos h1]
    exact ⟨⟨_, rfl⟩, rfl⟩
  · rw [if_neg h1]
    by_cases h2 : validate_dpi_range minDpi maxDpi = false
    · rw [if_pos h2]
      exact ⟨⟨_, rfl⟩, rfl⟩
    · rw [if_neg h2]
      by_cases h3 : (decide (0 ≤ level) && decide (level ≤ 9)) = false
      · rw [if_pos h3]
        exact ⟨⟨_, rfl⟩, rfl⟩
      · exfalso
        rcases h with h | h | h
        · exact h1 h
        · exact h2 h
        · simp at h3
          exact h h3

/-- Claim C8, witness: min_dpi = 50 is outside the global allowed range,
so convert fails before rendering anything. -/
theorem c8_fail_closed_validation_witness :
    (∃ e, (convertRun (fun _ _ => []) (fun _ _ _ => 0) true 3 5 50 600
      false 6).1 = Except.error e) ∧
    (convertRun (fun _ _ => []) (fun _ _ _ => 0) true 3 5 50 600
      false 6).2 = [] :=
  c8_fail_closed_validation (fun _ _ => []) (fun _ _ _ => 0) 3 5 50 600
    false 6 (Or.inr (Or.inl (by decide)))

/-- Claim C10 (budget validated even in quality-first mode): every call of
convert on an existing file with max_size_mb ≤ 0 raises the ValueError
for the budget even when quality_first = true, although quality-first
mode never uses the budget; no render call happens. -/
theorem c10_budget_validated_quality_first (render : ℕ → ℕ → List ℕ)
    (scale : ℕ → ℕ → ℕ → ℕ) (n : ℕ) (mb : ℚ) (minDpi maxDpi : ℤ)
    (level : ℤ) (h : mb ≤ 0) :
    convertRun render scale true n mb minDpi maxDpi true level
      = (Except.error ("max_size_mb must be positive"), []) := by
  unfold convertRun
  rw [if_neg (by simp), if_pos h]

/-- Claim C10, witness at max_size_mb = 0 with quality_first = true. -/
theorem c10_budget_validated_quality_first_witness :
    convertRun (fun _ _ => []) (fun _ _ _ => 0) true 2 0 150 600 true 6
      = (Except.error ("max_size_mb must be positive"), []) :=
  c10_budget_validated_quality_first (fun _ _ => []) (fun _ _ _ => 0) 2 0
    150 600 6 le_rfl
